import Mathlib

/-!
# Verification of the GitHub collector agent

Shallow embedding of `github.agent.py` (search, clone, report phases) and
proofs of the specification's testable properties.

Python strings are modelled as Lean `String`s (identified with their
character sequences), the filesystem as the list of existing paths under
the working area, and the network / git subprocess as explicit oracles
passed in as parameters.
-/

namespace GithubAgent

/-- A repository descriptor, as accumulated by `search_github`
(lines 110-117 of the source): the five fields projected from each
API item. -/
structure RepoInfo where
  name : String
  full_name : String
  clone_url : String
  stars : Nat
  owner : String
deriving DecidableEq

/-! ## Identifier sanitization (`clean_filename`, lines 45-48)

`re.sub(r'[^\w\-_]', '_', text)` replaces every character matching the
class `[^\w\-_]` by an underscore.  `\w` is the word-character class
(alphanumeric or underscore; modelled over its ASCII reading), so the
characters kept are exactly the alphanumerics, `_` and `-`. -/

/-- Python's `\w` character class (ASCII reading): alphanumeric or underscore. -/
def isWordChar (c : Char) : Bool := c.isAlphanum || c == '_'

/-- Whether `c` is kept by the regex class `[\w\-_]` of `clean_filename`. -/
def keepChar (c : Char) : Bool := isWordChar c || c == '-' || c == '_'

/-- `clean_filename` (line 48): replace every character outside `[\w\-_]`
by an underscore. -/
def clean_filename (text : String) : String :=
  String.mk (text.data.map (fun c => if keepChar c then c else '_'))

/-! ## Search phase (`search_github`, lines 67-130) -/

/-- The possible results of one page request, classifying the branches of
lines 92-108: a 200 response carrying an items list, a 401, a 403, any
other non-200 status, or a transport-level exception. -/
inductive ApiResponse where
  | ok (items : List RepoInfo)
  | unauthorized
  | rateLimited
  | otherError (code : Nat)
  | transportFailure
deriving DecidableEq

/-- The inner `for item in items` loop (lines 110-119): append each item,
breaking as soon as the accumulated length reaches `limit`. -/
def addItems (limit : Nat) (acc : List RepoInfo) : List RepoInfo → List RepoInfo
  | [] => acc
  | item :: rest =>
    let acc' := acc ++ [item]
    if limit ≤ acc'.length then acc' else addItems limit acc' rest

/-- The `while len(repos_found) < limit` loop of lines 82-126.
Returns `(accumulated, pageRequestsMade, abortedWith401)`.

Branches, in source order: loop guard; 401 returns at once (flagged, one
request); 403 / other status / transport error break with the accumulated
list; an empty items list breaks; otherwise the page's items are folded
in, the page counter advances, and `if page > 10: break` applies.

`fuel` is a structural-recursion bound; the top-level call passes `10`,
which the `10 < page + 1` guard makes exact (the loop body runs for pages
1..10 at most; see `searchLoop_fuel`). -/
def searchLoop (api : Nat → ApiResponse) (limit : Nat) :
    Nat → List RepoInfo → Nat → List RepoInfo × Nat × Bool
  | _, acc, 0 => (acc, 0, false)
  | page, acc, fuel + 1 =>
    if limit ≤ acc.length then (acc, 0, false)
    else
      match api page with
      | .unauthorized => (acc, 1, true)
      | .rateLimited => (acc, 1, false)
      | .otherError _ => (acc, 1, false)
      | .transportFailure => (acc, 1, false)
      | .ok items =>
        if items.isEmpty then (acc, 1, false)
        else
          let acc' := addItems limit acc items
          if 10 < page + 1 then (acc', 1, false)
          else
            let r := searchLoop api limit (page + 1) acc' fuel
            (r.1, r.2.1 + 1, r.2.2)

/-- The pagination loop as run by `search_github`: from page 1 with an
empty accumulator. -/
def search_run (api : Nat → ApiResponse) (limit : Nat) :
    List RepoInfo × Nat × Bool :=
  searchLoop api limit 1 [] 10

/-- Number of page requests a run issues. -/
def pagesFetched (api : Nat → ApiResponse) (limit : Nat) : Nat :=
  (search_run api limit).2.1

/-- Descending-by-stars order used by `repos_found.sort(key=..., reverse=True)`
(line 129). -/
def starsGe (a b : RepoInfo) : Prop := b.stars ≤ a.stars

instance : DecidableRel starsGe := fun a b => Nat.decLe b.stars a.stars

instance : IsTotal RepoInfo starsGe := ⟨fun a b => Nat.le_total b.stars a.stars⟩

instance : IsTrans RepoInfo starsGe := ⟨fun _ _ _ hab hbc => Nat.le_trans hbc hab⟩

/-- Python's `list.sort(key=lambda x: x['stars'], reverse=True)` (line 129):
a stable sort into non-increasing star order, modelled by the stable
insertion sort. -/
def pySortByStarsDesc (l : List RepoInfo) : List RepoInfo :=
  List.insertionSort starsGe l

/-- `search_github` (lines 67-130): run the pagination loop; a 401 run
returned `[]` directly (line 96), every other run ends with the defensive
re-sort by stars and truncation to `limit` (lines 129-130). -/
def search_github (api : Nat → ApiResponse) (limit : Nat) : List RepoInfo :=
  let r := search_run api limit
  if r.2.2 then [] else (pySortByStarsDesc r.1).take limit

/-- The items a 200 response to page `p` carries (empty for error responses). -/
def itemsAt (api : Nat → ApiResponse) (p : Nat) : List RepoInfo :=
  match api p with
  | .ok items => items
  | _ => []

/-- All items the API yields across `n` consecutive pages starting at `page`. -/
def pageSpan (api : Nat → ApiResponse) (page : Nat) : Nat → List RepoInfo
  | 0 => []
  | n + 1 => itemsAt api page ++ pageSpan api (page + 1) n

/-- All items the API yields across the pages a run of `search_github`
actually fetches. -/
def fetchedItems (api : Nat → ApiResponse) (limit : Nat) : List RepoInfo :=
  pageSpan api 1 (pagesFetched api limit)

/-! ## Clone phase (`clone_single_repo`, lines 136-176)

The filesystem is modelled as the list of existing paths (directories and
files) under the agent's base directory; the `git clone` subprocess as an
oracle saying, for each invocation, whether it succeeds (exit 0 within the
180s timeout) and which paths it creates. -/

/-- `WORK_DIR` (line 39), relative to the current directory. -/
def WORK_DIR : String := "github_agent_downloads/temp_repos"

/-- The filesystem: the list of existing paths. -/
abbrev FS := List String

/-- `Path.exists()` over the modelled filesystem. -/
def pathExists (fs : FS) (p : String) : Bool := fs.contains p

/-- Whether path `p` is `root` itself or lies underneath it. -/
def isUnder (root p : String) : Bool :=
  p == root || (root ++ "/").data.isPrefixOf p.data

/-- `shutil.rmtree`: delete `root` and everything underneath it. -/
def rmtree (fs : FS) (root : String) : FS :=
  fs.filter (fun p => !(isUnder root p))

/-- The `git clone` subprocess, as an oracle over `(auth_url, target_path)`:
whether the invocation exits successfully within the timeout, and which
paths it creates (its clone destination plus whatever it wrote before a
failure). -/
structure GitEnv where
  succeeds : String → String → Bool
  created : String → String → List String

/-- The observable outcome of one `clone_single_repo` call: its return
value, the filesystem afterwards, and how many subprocess invocations it
performed. -/
structure CloneOutcome where
  result : Option RepoInfo
  fs : FS
  gitCalls : Nat
deriving DecidableEq

/-- Python `str.startswith` (model: character-sequence prefix test). -/
def pyStartswith (s pre : String) : Bool := pre.data.isPrefixOf s.data

/-- Replace the first occurrence of `old` in a character list by `new`
(the `count = 1` case of Python `str.replace`). -/
def replaceFirst (old new : List Char) : List Char → List Char
  | [] => if old.isPrefixOf ([] : List Char) then new ++ List.drop old.length [] else []
  | c :: rest =>
    if old.isPrefixOf (c :: rest) then new ++ List.drop old.length (c :: rest)
    else c :: replaceFirst old new rest

/-- Python `s.replace(old, new, 1)`. -/
def pyReplace1 (s old new : String) : String :=
  String.mk (replaceFirst old.data new.data s.data)

/-- Folder name computed on line 139: `clean_filename(f"{name}_{owner}")`. -/
def folder_name (repo : RepoInfo) : String :=
  clean_filename (repo.name ++ "_" ++ repo.owner)

/-- Target path of line 140: `WORK_DIR / folder_name`. -/
def target_path (repo : RepoInfo) : String :=
  WORK_DIR ++ "/" ++ folder_name repo

/-- Credential injection of lines 146-150: with a truthy token and a
`https://github.com/` clone URL, splice `{token}@` in by replacing the
first `https://`; otherwise use the URL as is. -/
def make_auth_url (token clone_url : String) : String :=
  if token ≠ "" ∧ pyStartswith clone_url "https://github.com/" = true then
    pyReplace1 clone_url "https://" ("https://" ++ token ++ "@")
  else clone_url

/-- `clone_single_repo` (lines 136-176): skip when the target directory
exists; otherwise run `git clone` on the credential-injected URL.  On
success remove the `.git` subdirectory and return the descriptor; on any
exception remove the target directory if present and return `None`. -/
def clone_single_repo (env : GitEnv) (repo : RepoInfo) (token : String)
    (fs : FS) : CloneOutcome :=
  let target := target_path repo
  if pathExists fs target then
    { result := none, fs := fs, gitCalls := 0 }
  else
    let auth_url := make_auth_url token repo.clone_url
    let fs1 := env.created auth_url target ++ fs
    if env.succeeds auth_url target then
      let git_hidden := target ++ "/.git"
      let fs2 := if pathExists fs1 git_hidden then rmtree fs1 git_hidden else fs1
      { result := some repo, fs := fs2, gitCalls := 1 }
    else
      let fs2 := if pathExists fs1 target then rmtree fs1 target else fs1
      { result := none, fs := fs2, gitCalls := 1 }

/-! ## Aggregation and report (`main`, lines 230-253) -/

/-- The success counter of lines 230-241: a thread result is counted when
it is truthy, i.e. not `None` (a returned descriptor dict is never empty). -/
def count_successes (results : List (Option RepoInfo)) : Nat :=
  (results.filter (fun r => r.isSome)).length

/-- The descriptor line written for each repository (line 253):
`[<stars>★] <full_name> -> <clone_url>`. -/
def repo_line (r : RepoInfo) : String :=
  "[" ++ toString r.stars ++ "★] " ++ r.full_name ++ " -> " ++ r.clone_url

/-- The report file of lines 246-253, as its list of lines: timestamp,
query, requested count, success count, a separator, then one line per
descriptor in the order `search_github` returned them. -/
def report_lines (timestamp query : String) (user_limit success_count : Nat)
    (repos : List RepoInfo) : List String :=
  ("Rapport généré le " ++ timestamp) ::
  ("Recherche : " ++ query) ::
  ("Projets demandés : " ++ toString user_limit) ::
  ("Projets téléchargés : " ++ toString success_count) ::
  String.mk (List.replicate 30 '-') ::
  repos.map repo_line

/-! ## Concrete fixtures

Small descriptors, API schedules and git oracles used to witness the
theorems below on closed inputs. -/

def repoA : RepoInfo := ⟨"a", "o/a", "https://github.com/o/a.git", 5, "o"⟩

def repoB : RepoInfo := ⟨"b", "o/b", "https://github.com/o/b.git", 50, "o"⟩

def repoC : RepoInfo := ⟨"c", "o/c", "https://github.com/o/c.git", 40, "o"⟩

/-- A repository whose owner and name differ, so that the sanitized
fully-qualified identifier and the actual folder name disagree. -/
def repoX : RepoInfo := ⟨"bob", "alice/bob", "https://github.com/alice/bob.git", 1, "alice"⟩

/-- API schedule: page 1 carries one item, every later page answers 401. -/
def api401 : Nat → ApiResponse := fun p => if p = 1 then .ok [repoA] else .unauthorized

/-- API schedule: page 1 repeats the same item twice, later pages are empty. -/
def apiDup : Nat → ApiResponse := fun p => if p = 1 then .ok [repoA, repoA] else .ok []

/-- API schedule: page 1 carries two distinct items, later pages are empty. -/
def apiTwo : Nat → ApiResponse := fun p => if p = 1 then .ok [repoB, repoC] else .ok []

/-- Git oracle that always succeeds and creates the clone destination with
its `.git` subdirectory. -/
def envClone : GitEnv := ⟨fun _ _ => true, fun _ t => [t, t ++ "/.git"]⟩

/-- Git oracle that always succeeds and creates nothing (only reachable
when the skip path is taken). -/
def envIdle : GitEnv := ⟨fun _ _ => true, fun _ _ => []⟩

/-- Git oracle that always fails after writing the destination directory
and one file inside it. -/
def envFail : GitEnv := ⟨fun _ _ => false, fun _ t => [t, t ++ "/README.md"]⟩

/-! ## Helper lemmas -/

theorem pathExists_iff {fs : FS} {p : String} : pathExists fs p = true ↔ p ∈ fs := by
  simp [pathExists, List.contains]

theorem isUnder_self (r : String) : isUnder r r = true := by
  simp [isUnder]

theorem isUnder_dotgit (t : String) : isUnder (t ++ "/.git") t = false := by
  simp only [isUnder, Bool.or_eq_false_iff]
  constructor
  · rw [beq_eq_false_iff_ne]
    intro h
    have hlen : t.data.length = t.data.length + 5 := by
      conv_lhs => rw [h]
      simp [String.data_append]
    omega
  · rw [Bool.eq_false_iff]
    intro h
    have hpre : (t ++ "/.git" ++ "/").data <+: t.data := by
      simpa using h
    have hle := hpre.length_le
    simp [String.data_append] at hle


theorem pathExists_append {a b : FS} {p : String} :
    pathExists (a ++ b) p = true ↔ pathExists a p = true ∨ pathExists b p = true := by
  simp [pathExists_iff]

theorem pathExists_rmtree_of_isUnder (l : FS) {root p : String}
    (h : isUnder root p = true) : pathExists (rmtree l root) p = false := by
  rw [Bool.eq_false_iff]
  intro hmem
  have hm := pathExists_iff.mp hmem
  have hpred := (List.mem_filter.mp hm).2
  rw [h] at hpred
  simp at hpred

theorem pathExists_rmtree_of_mem (l : FS) {root p : String}
    (h : isUnder root p = false) (hmem : pathExists l p = true) :
    pathExists (rmtree l root) p = true := by
  rw [pathExists_iff] at hmem ⊢
  exact List.mem_filter.mpr ⟨hmem, by simp [h]⟩

theorem replaceFirst_of_isPrefix {old s : List Char} (new : List Char)
    (h : old.isPrefixOf s = true) :
    replaceFirst old new s = new ++ List.drop old.length s := by
  cases s with
  | nil => simp [replaceFirst, h]
  | cons c rest => simp [replaceFirst, h]

theorem addItems_spec (limit : Nat) :
    ∀ (items acc : List RepoInfo), acc.length < limit →
      (addItems limit acc items).length = min (acc.length + items.length) limit ∧
      (addItems limit acc items).Sublist (acc ++ items) := by
  intro items
  induction items with
  | nil =>
    intro acc h
    refine ⟨?_, by simp [addItems]⟩
    simp [addItems]
    omega
  | cons item rest ih =>
    intro acc h
    by_cases hfull : limit ≤ acc.length + 1
    · have heq : addItems limit acc (item :: rest) = acc ++ [item] := by
        simp [addItems, hfull]
      rw [heq]
      refine ⟨by simp; omega, ?_⟩
      simp
    · have heq : addItems limit acc (item :: rest) = addItems limit (acc ++ [item]) rest := by
        simp [addItems, hfull]
      rw [heq]
      obtain ⟨hlen, hsub⟩ := ih (acc ++ [item]) (by simp; omega)
      refine ⟨by rw [hlen]; simp; omega, ?_⟩
      simpa using hsub

/-- The request counter never exceeds the structural fuel. -/
theorem searchLoop_requests_le (api : Nat → ApiResponse) (limit : Nat) :
    ∀ (fuel page : Nat) (acc : List RepoInfo),
      (searchLoop api limit page acc fuel).2.1 ≤ fuel := by
  intro fuel
  induction fuel with
  | zero => intro page acc; simp [searchLoop]
  | succ f ih =>
    intro page acc
    simp only [searchLoop]
    split
    · simp
    · split <;> try simp
      split
      · simp
      · split
        · simp
        · simpa using Nat.add_le_add_right (ih (page + 1) _) 1

/-- The fuel is inessential: any fuel covering the remaining pages up to
the `page > 10` ceiling gives the same run, so the top-level choice of 10
only mirrors the ceiling. -/
theorem searchLoop_fuel (api : Nat → ApiResponse) (limit : Nat) :
    ∀ (fuel₁ fuel₂ page : Nat) (acc : List RepoInfo), page ≤ 10 →
      11 ≤ page + fuel₁ → 11 ≤ page + fuel₂ →
      searchLoop api limit page acc fuel₁ = searchLoop api limit page acc fuel₂ := by
  intro fuel₁
  induction fuel₁ with
  | zero => intro fuel₂ page acc hp h1 h2; omega
  | succ f ih =>
    intro fuel₂ page acc hp h1 h2
    cases fuel₂ with
    | zero => omega
    | succ f₂ =>
      simp only [searchLoop]
      split
      · rfl
      · split <;> try rfl
        split
        · rfl
        · split
          · rfl
          · have hp' : page + 1 ≤ 10 := by
              rename_i hceil
              omega
            rw [ih f₂ (page + 1) _ hp' (by omega) (by omega)]

theorem getD_map_sanitize :
    ∀ (l : List Char) (i : Nat),
      (l.map (fun c => if keepChar c then c else '_')).getD i '_' =
        if keepChar (l.getD i '_') then l.getD i '_' else '_' := by
  intro l
  induction l with
  | nil => intro i; simp
  | cons c cs ih =>
    intro i
    cases i with
    | zero => simp
    | succ j => simpa using ih j

theorem keepChar_iff (c : Char) :
    keepChar c = true ↔ (c.isAlphanum = true ∨ c = '_' ∨ c = '-') := by
  simp only [keepChar, isWordChar, Bool.or_eq_true, beq_iff_eq]
  tauto

/-- Invariant of the pagination loop when every page request is answered
with HTTP 200 and an items list: the run never aborts with 401, the
accumulated list is a sublist of the items spanned by the requested pages,
and its length is the requested total clipped to `limit`. -/
theorem searchLoop_ok (api : Nat → ApiResponse) (limit : Nat)
    (hapi : ∀ p, ∃ l, api p = ApiResponse.ok l) :
    ∀ (fuel page : Nat) (acc : List RepoInfo), acc.length ≤ limit →
      page + fuel = 11 →
      (searchLoop api limit page acc fuel).2.2 = false ∧
      (searchLoop api limit page acc fuel).1.length =
        min (acc.length + (pageSpan api page (searchLoop api limit page acc fuel).2.1).length)
          limit ∧
      (searchLoop api limit page acc fuel).1.Sublist
        (acc ++ pageSpan api page (searchLoop api limit page acc fuel).2.1) := by
  intro fuel
  induction fuel with
  | zero =>
    intro page acc hacc hpage
    refine ⟨rfl, ?_, by simp [searchLoop, pageSpan]⟩
    simp [searchLoop, pageSpan]
    omega
  | succ f ih =>
    intro page acc hacc hpage
    obtain ⟨items, hitems⟩ := hapi page
    by_cases hguard : limit ≤ acc.length
    · have heq : searchLoop api limit page acc (f + 1) = (acc, 0, false) := by
        simp [searchLoop, hguard]
      rw [heq]
      refine ⟨rfl, ?_, by simp [pageSpan]⟩
      simp [pageSpan]
      omega
    · by_cases hempty : items.isEmpty
      · have heq : searchLoop api limit page acc (f + 1) = (acc, 1, false) := by
          simp [searchLoop, hguard, hitems, hempty]
        rw [heq]
        have hitems0 : itemsAt api page = [] := by
          simp [itemsAt, hitems]
          exact List.isEmpty_iff.mp hempty
        refine ⟨rfl, ?_, by simp [pageSpan, hitems0]⟩
        simp [pageSpan, hitems0]
        omega
      · have hlt : acc.length < limit := Nat.lt_of_not_le hguard
        obtain ⟨haddlen, haddsub⟩ := addItems_spec limit items acc hlt
        have hitemsAt : itemsAt api page = items := by simp [itemsAt, hitems]
        by_cases hceil : 10 < page + 1
        · have heq : searchLoop api limit page acc (f + 1) =
              (addItems limit acc items, 1, false) := by
            simp [searchLoop, hguard, hitems, hempty, hceil]
          rw [heq]
          refine ⟨rfl, ?_, ?_⟩
          · simpa [pageSpan, hitemsAt] using haddlen
          · simpa [pageSpan, hitemsAt] using haddsub
        · have heq : searchLoop api limit page acc (f + 1) =
              ((searchLoop api limit (page + 1) (addItems limit acc items) f).1,
               (searchLoop api limit (page + 1) (addItems limit acc items) f).2.1 + 1,
               (searchLoop api limit (page + 1) (addItems limit acc items) f).2.2) := by
            simp [searchLoop, hguard, hitems, hempty, hceil]
          rw [heq]
          have haddle : (addItems limit acc items).length ≤ limit := by omega
          obtain ⟨hab, hlen, hsub⟩ :=
            ih (page + 1) (addItems limit acc items) haddle (by omega)
          refine ⟨hab, ?_, ?_⟩
          · rw [hlen, haddlen]
            simp only [pageSpan, hitemsAt, List.length_append]
            omega
          · refine hsub.trans ?_
            simp only [pageSpan, hitemsAt]
            have := haddsub.append_right
              (pageSpan api (page + 1) (searchLoop api limit (page + 1)
                (addItems limit acc items) f).2.1)
            simpa [List.append_assoc] using this

/-! ## Claim theorems -/

/-- **C1** (counterexample).  The claim as stated is false: the code never
deduplicates by fully-qualified identifier, so an API run that yields the
same item on one page (N = 2 items across fetched pages, requested count
2) makes `search` return that identifier twice. -/
theorem search_github_dup_counterexample :
    search_github apiDup 2 = [repoA, repoA] ∧
    fetchedItems apiDup 2 = [repoA, repoA] ∧
    ¬ ((search_github apiDup 2).map RepoInfo.full_name).Nodup := by
  refine ⟨by decide, by decide, ?_⟩
  decide

/-- **C1** (amended).  For every query whose page requests are all
answered with HTTP 200 and an items list, yielding N items across the
fetched pages, `search` returns exactly `min(N, requested_count)`
descriptors sorted by non-increasing star count; and whenever those N
items have pairwise-distinct fully-qualified identifiers, the returned
list contains no duplicate identifier. -/
theorem search_github_benign (api : Nat → ApiResponse) (limit : Nat)
    (hapi : ∀ p, ∃ l, api p = ApiResponse.ok l) :
    (search_github api limit).length = min (fetchedItems api limit).length limit ∧
    (search_github api limit).Pairwise (fun a b => b.stars ≤ a.stars) ∧
    (((fetchedItems api limit).map RepoInfo.full_name).Nodup →
      ((search_github api limit).map RepoInfo.full_name).Nodup) := by
  obtain ⟨hab, hlen, hsub⟩ :=
    searchLoop_ok api limit hapi 10 1 [] (by simp) (by omega)
  simp only [List.length_nil, List.nil_append, Nat.zero_add] at hlen hsub
  have hab' : (search_run api limit).2.2 = false := hab
  have hres : search_github api limit =
      (pySortByStarsDesc (search_run api limit).1).take limit := by
    simp [search_github, hab']
  have hfetched : fetchedItems api limit
      = pageSpan api 1 (search_run api limit).2.1 := rfl
  refine ⟨?_, ?_, ?_⟩
  · rw [hres, hfetched]
    have h1 : (pySortByStarsDesc (search_run api limit).1).length
        = (search_run api limit).1.length := by
      simp [pySortByStarsDesc, List.length_insertionSort]
    rw [List.length_take, h1]
    rw [show (search_run api limit).1.length
      = min (pageSpan api 1 (search_run api limit).2.1).length limit from hlen]
    omega
  · rw [hres]
    have hsorted : (pySortByStarsDesc (search_run api limit).1).Pairwise starsGe :=
      List.sorted_insertionSort starsGe (search_run api limit).1
    exact List.Pairwise.sublist (List.take_sublist _ _) hsorted
  · intro hnd
    rw [hres]
    rw [hfetched] at hnd
    have hnd1 : ((search_run api limit).1.map RepoInfo.full_name).Nodup :=
      List.Nodup.sublist (hsub.map RepoInfo.full_name) hnd
    have hperm : List.Perm
        ((pySortByStarsDesc (search_run api limit).1).map RepoInfo.full_name)
        ((search_run api limit).1.map RepoInfo.full_name) :=
      (List.perm_insertionSort starsGe (search_run api limit).1).map RepoInfo.full_name
    have hnd2 : ((pySortByStarsDesc (search_run api limit).1).map RepoInfo.full_name).Nodup :=
      hperm.nodup_iff.mpr hnd1
    exact List.Nodup.sublist
      (List.Sublist.map RepoInfo.full_name (List.take_sublist _ _)) hnd2

/-- **C1** witness: the amended theorem applied to a concrete benign API
schedule (page 1 yields two distinct items, requested count 1). -/
theorem search_github_benign_witness :
    (search_github apiTwo 1).length = min (fetchedItems apiTwo 1).length 1 ∧
    (search_github apiTwo 1).Pairwise (fun a b => b.stars ≤ a.stars) ∧
    (((fetchedItems apiTwo 1).map RepoInfo.full_name).Nodup →
      ((search_github apiTwo 1).map RepoInfo.full_name).Nodup) :=
  search_github_benign apiTwo 1 (fun p => by
    by_cases h : p = 1
    · exact ⟨[repoB, repoC], by simp [apiTwo, h]⟩
    · exact ⟨[], by simp [apiTwo, h]⟩)

/-- **C2** (counterexample).  The claim as stated is false: with one item
accumulated from page 1 and a 401 on page 2, `search` returns `[]`
(line 96 is `return []`), not the accumulated `[repoA]`. -/
theorem search_401_discards_counterexample :
    (search_run api401 3).1 = [repoA] ∧
    search_github api401 3 = [] ∧
    search_github api401 3 ≠ (search_run api401 3).1 := by
  refine ⟨by decide, by decide, by decide⟩

/-- **C2** (amended).  When a page request during search returns HTTP 401,
search aborts pagination immediately (that request is the run's last) and
returns the empty list, discarding any descriptors accumulated from
earlier pages. -/
theorem search_401_aborts (api : Nat → ApiResponse) (limit : Nat) :
    (∀ (page fuel : Nat) (acc : List RepoInfo), acc.length < limit →
      api page = ApiResponse.unauthorized →
      searchLoop api limit page acc (fuel + 1) = (acc, 1, true)) ∧
    ((search_run api limit).2.2 = true → search_github api limit = []) := by
  constructor
  · intro page fuel acc hroom h401
    simp [searchLoop, Nat.not_le.mpr hroom, h401]
  · intro hab
    simp [search_github, hab]

/-- **C2** witness: on the concrete 401 schedule the loop step at page 2
stops with one request and the abort flag, and the aborted run returns
`[]`. -/
theorem search_401_aborts_witness :
    searchLoop api401 3 2 [repoA] 9 = ([repoA], 1, true) ∧
    search_github api401 3 = [] :=
  ⟨(search_401_aborts api401 3).1 2 8 [repoA] (by decide) (by decide),
   (search_401_aborts api401 3).2 (by decide)⟩

/-- **C5** (confirmed).  For every API behavior and requested count, the
search run issues at most 10 page requests. -/
theorem search_pages_bounded (api : Nat → ApiResponse) (limit : Nat) :
    pagesFetched api limit ≤ 10 :=
  searchLoop_requests_le api limit 10 1 []

/-- **C3** (confirmed).  When the computed target subdirectory already
exists, `clone_single_repo` returns the skip outcome (`None`) at once:
the filesystem is untouched and no git subprocess is invoked. -/
theorem clone_skips_existing (env : GitEnv) (repo : RepoInfo) (token : String)
    (fs : FS) (h : pathExists fs (target_path repo) = true) :
    clone_single_repo env repo token fs = ⟨none, fs, 0⟩ := by
  simp [clone_single_repo, h]

/-- **C3** witness: a workspace already holding `repoA`'s target directory
makes the clone return `None` with zero subprocess calls. -/
theorem clone_skips_existing_witness :
    pathExists [target_path repoA] (target_path repoA) = true ∧
    clone_single_repo envIdle repoA "" [target_path repoA] =
      ⟨none, [target_path repoA], 0⟩ :=
  ⟨by decide, clone_skips_existing envIdle repoA "" [target_path repoA] (by decide)⟩

/-- **C4** (confirmed).  If the workspace holds nothing at or under the
target subdirectory, the clone invocation fails, and the target directory
itself is among the paths the failed invocation created whenever it
created anything (a filesystem cannot hold entries under a directory that
does not exist), then `clone_single_repo` reports `None` and afterwards
nothing at or under the target subdirectory exists: no partial directory
is left behind. -/
theorem clone_failure_rollback (env : GitEnv) (repo : RepoInfo) (token : String)
    (fs : FS)
    (hclean : ∀ p, isUnder (target_path repo) p = true → pathExists fs p = false)
    (hfail : env.succeeds (make_auth_url token repo.clone_url) (target_path repo) = false)
    (hdir : env.created (make_auth_url token repo.clone_url) (target_path repo) ≠ [] →
      (env.created (make_auth_url token repo.clone_url) (target_path repo)).contains
        (target_path repo) = true) :
    (clone_single_repo env repo token fs).result = none ∧
    ∀ p, isUnder (target_path repo) p = true →
      pathExists (clone_single_repo env repo token fs).fs p = false := by
  have hnew : pathExists fs (target_path repo) = false :=
    hclean _ (isUnder_self _)
  rcases hcr : env.created (make_auth_url token repo.clone_url) (target_path repo)
    with _ | ⟨q, qs⟩
  · have heq : clone_single_repo env repo token fs = ⟨none, fs, 1⟩ := by
      simp [clone_single_repo, hnew, hfail, hcr]
    rw [heq]
    exact ⟨rfl, fun p hp => hclean p hp⟩
  · have hmemtarget : pathExists
        (env.created (make_auth_url token repo.clone_url) (target_path repo) ++ fs)
        (target_path repo) = true := by
      refine pathExists_append.mpr (Or.inl ?_)
      exact hdir (by simp [hcr])
    have heq : clone_single_repo env repo token fs =
        ⟨none, rmtree
          (env.created (make_auth_url token repo.clone_url) (target_path repo) ++ fs)
          (target_path repo), 1⟩ := by
      simp only [clone_single_repo, hnew, Bool.false_eq_true, if_false, hfail,
        hmemtarget, if_true]
    rw [heq]
    exact ⟨rfl, fun p hp => pathExists_rmtree_of_isUnder _ hp⟩

/-- **C4** witness: a failing clone that wrote the target directory and a
file inside it reports `None` and leaves no target directory behind. -/
theorem clone_failure_rollback_witness :
    (clone_single_repo envFail repoA "" []).result = none ∧
    pathExists (clone_single_repo envFail repoA "" []).fs (target_path repoA) = false :=
  have h := clone_failure_rollback envFail repoA "" []
    (fun p _ => by simp [pathExists])
    (by decide)
    (fun _ => by decide)
  ⟨h.1, h.2 (target_path repoA) (isUnder_self _)⟩

/-- **C6** (confirmed).  With a non-empty credential and a clone endpoint
starting with the unauthenticated scheme `https://github.com/`, the URL is
rewritten to embed the credential exactly once at the authority component
(`https://<token>@github.com/...`); in every other case the endpoint is
returned completely unmodified. -/
theorem make_auth_url_spec (token url : String) :
    (token ≠ "" → pyStartswith url "https://github.com/" = true →
      ∃ rest : String, url = "https://github.com/" ++ rest ∧
        make_auth_url token url =
          "https://" ++ token ++ "@" ++ "github.com/" ++ rest) ∧
    ((token = "" ∨ pyStartswith url "https://github.com/" = false) →
      make_auth_url token url = url) := by
  constructor
  · intro htok hpre
    have hpl : ("https://github.com/" : String).data.IsPrefix url.data := by
      simpa [pyStartswith] using hpre
    obtain ⟨restL, hrest⟩ := hpl
    have hsplit : ("https://github.com/" : String).data
        = ("https://" : String).data ++ ("github.com/" : String).data := by decide
    have hurl : url.data
        = ("https://" : String).data ++ (("github.com/" : String).data ++ restL) := by
      rw [← hrest, hsplit, List.append_assoc]
    refine ⟨String.mk restL, ?_, ?_⟩
    · apply String.ext
      rw [← hrest]
      simp [String.data_append]
    · have hcond : token ≠ "" ∧ pyStartswith url "https://github.com/" = true :=
        ⟨htok, hpre⟩
      rw [make_auth_url, if_pos hcond, pyReplace1]
      have hpref8 : ("https://" : String).data.isPrefixOf url.data = true := by
        simp [hurl]
      rw [replaceFirst_of_isPrefix _ hpref8]
      apply String.ext
      rw [hurl, List.drop_left]
      simp [String.data_append, List.append_assoc]
  · intro h
    rw [make_auth_url, if_neg]
    rcases h with h | h
    · exact fun hc => hc.1 h
    · exact fun hc => absurd hc.2 (by simp [h])

/-- **C6** witness: a concrete token is spliced in exactly once, and the
empty token leaves the URL untouched. -/
theorem make_auth_url_spec_witness :
    (∃ rest : String, "https://github.com/o/a.git" = "https://github.com/" ++ rest ∧
      make_auth_url "TOKEN" "https://github.com/o/a.git" =
        "https://" ++ "TOKEN" ++ "@" ++ "github.com/" ++ rest) ∧
    make_auth_url "" "https://github.com/o/a.git" = "https://github.com/o/a.git" :=
  ⟨(make_auth_url_spec "TOKEN" "https://github.com/o/a.git").1 (by decide) (by decide),
   (make_auth_url_spec "" "https://github.com/o/a.git").2 (Or.inl rfl)⟩

/-- **C7** (counterexample).  The claim as stated is false: the materialized
subdirectory is named `clean_filename(name + "_" + owner)` (line 139), not
the sanitized fully-qualified identifier `owner/name`.  For the repository
`alice/bob` the successful clone materializes `bob_alice`, while the
sanitized fully-qualified identifier would be `alice_bob`, which does not
exist. -/
theorem clone_target_name_counterexample :
    (clone_single_repo envClone repoX "" []).result = some repoX ∧
    pathExists (clone_single_repo envClone repoX "" []).fs
      (WORK_DIR ++ "/" ++ clean_filename repoX.full_name) = false ∧
    pathExists (clone_single_repo envClone repoX "" []).fs
      (WORK_DIR ++ "/" ++ clean_filename (repoX.name ++ "_" ++ repoX.owner)) = true ∧
    clean_filename repoX.full_name ≠ folder_name repoX := by
  decide

/-- **C7** (amended).  For every descriptor, the target subdirectory that
a successful fetch materializes in the workspace is named by the sanitized
concatenation of the descriptor's name, an underscore, and its owner
(`clean_filename(name + "_" + owner)`). -/
theorem clone_target_name (env : GitEnv) (repo : RepoInfo) (token : String)
    (fs : FS)
    (hnew : pathExists fs (target_path repo) = false)
    (hok : env.succeeds (make_auth_url token repo.clone_url) (target_path repo) = true)
    (hcre : (env.created (make_auth_url token repo.clone_url)
      (target_path repo)).contains (target_path repo) = true) :
    (clone_single_repo env repo token fs).result = some repo ∧
    pathExists (clone_single_repo env repo token fs).fs
      (WORK_DIR ++ "/" ++ clean_filename (repo.name ++ "_" ++ repo.owner)) = true := by
  have hmem1 : pathExists
      (env.created (make_auth_url token repo.clone_url) (target_path repo) ++ fs)
      (target_path repo) = true :=
    pathExists_append.mpr (Or.inl hcre)
  refine ⟨by simp [clone_single_repo, hnew, hok], ?_⟩
  by_cases hgit : pathExists
      (env.created (make_auth_url token repo.clone_url) (target_path repo) ++ fs)
      (target_path repo ++ "/.git") = true
  · have hfs : (clone_single_repo env repo token fs).fs =
        rmtree (env.created (make_auth_url token repo.clone_url) (target_path repo) ++ fs)
          (target_path repo ++ "/.git") := by
      simp [clone_single_repo, hnew, hok, hgit]
    rw [hfs]
    exact pathExists_rmtree_of_mem _ (isUnder_dotgit _) hmem1
  · have hfs : (clone_single_repo env repo token fs).fs =
        env.created (make_auth_url token repo.clone_url) (target_path repo) ++ fs := by
      simp [clone_single_repo, hnew, hok, hgit]
    rw [hfs]
    exact hmem1

/-- **C7** witness: the amended theorem applied to a successful concrete
clone of `repoX`, whose target directory `bob_alice` then exists. -/
theorem clone_target_name_witness :
    (clone_single_repo envClone repoX "" []).result = some repoX ∧
    pathExists (clone_single_repo envClone repoX "" []).fs
      (WORK_DIR ++ "/" ++ clean_filename (repoX.name ++ "_" ++ repoX.owner)) = true :=
  clone_target_name envClone repoX "" [] (by decide) (by decide) (by decide)

/-- **C8** (confirmed).  The manifest holds the generation timestamp, the
query text, the requested count and the succeeded count in its first four
lines, and after the separator exactly one line per descriptor returned by
the search, formatted `[<stars>★] <full_name> -> <clone_url>`, in the
order the search returned them — independent of the per-descriptor fetch
outcomes (the lines are the same for every value of the success
counter). -/
theorem report_spec (api : Nat → ApiResponse) (limit : Nat)
    (timestamp query : String) (success_count : Nat) :
    (report_lines timestamp query limit success_count (search_github api limit)).length
      = 5 + (search_github api limit).length ∧
    (report_lines timestamp query limit success_count (search_github api limit)).take 4
      = ["Rapport généré le " ++ timestamp,
         "Recherche : " ++ query,
         "Projets demandés : " ++ toString limit,
         "Projets téléchargés : " ++ toString success_count] ∧
    (report_lines timestamp query limit success_count (search_github api limit)).drop 5
      = (search_github api limit).map
          (fun r => "[" ++ toString r.stars ++ "★] " ++ r.full_name ++ " -> " ++ r.clone_url) := by
  refine ⟨?_, rfl, rfl⟩
  simp [report_lines]
  omega

/-- **C9** (confirmed).  `clean_filename` preserves the length of its
input and, position by position, keeps every character that is
alphanumeric, an underscore or a hyphen, and replaces every other
character by an underscore. -/
theorem clean_filename_spec (text : String) :
    (clean_filename text).length = text.length ∧
    ∀ i : Nat, (clean_filename text).data.getD i '_' =
      if (text.data.getD i '_').isAlphanum = true ∨ text.data.getD i '_' = '_'
          ∨ text.data.getD i '_' = '-'
      then text.data.getD i '_' else '_' := by
  constructor
  · exact List.length_map text.data _
  · intro i
    have h := getD_map_sanitize text.data i
    rw [show (clean_filename text).data
      = text.data.map (fun c => if keepChar c then c else '_') from rfl, h]
    by_cases hk : keepChar (text.data.getD i '_') = true
    · rw [if_pos hk, if_pos ((keepChar_iff _).mp hk)]
    · rw [if_neg hk, if_neg (fun hset => hk ((keepChar_iff _).mpr hset))]

/-- **C10** (confirmed).  `clone_single_repo` returns either the
descriptor record (successful retrieval) or `None`; the skip case (target
already exists) and the failure case both yield the identical outcome
`None`, indistinguishable to the caller, and a `None` result never
contributes to the success counter. -/
theorem clone_result_merges_skip_and_failure (env : GitEnv) (repo : RepoInfo)
    (token : String) (fs fsSkip fsFail : FS)
    (hex : pathExists fsSkip (target_path repo) = true)
    (hnew : pathExists fsFail (target_path repo) = false)
    (hfail : env.succeeds (make_auth_url token repo.clone_url) (target_path repo) = false) :
    ((clone_single_repo env repo token fs).result = none ∨
      (clone_single_repo env repo token fs).result = some repo) ∧
    (clone_single_repo env repo token fsSkip).result = none ∧
    (clone_single_repo env repo token fsFail).result = none ∧
    (clone_single_repo env repo token fsSkip).result
      = (clone_single_repo env repo token fsFail).result ∧
    ∀ results : List (Option RepoInfo),
      count_successes (none :: results) = count_successes results := by
  have hskip : (clone_single_repo env repo token fsSkip).result = none := by
    simp [clone_single_repo, hex]
  have hfailr : (clone_single_repo env repo token fsFail).result = none := by
    simp [clone_single_repo, hnew, hfail]
  refine ⟨?_, hskip, hfailr, by rw [hskip, hfailr], ?_⟩
  · by_cases h1 : pathExists fs (target_path repo) = true
    · left; simp [clone_single_repo, h1]
    · by_cases h2 : env.succeeds (make_auth_url token repo.clone_url)
          (target_path repo) = true
      · right; simp [clone_single_repo, h1, h2]
      · left; simp [clone_single_repo, h1, h2]
  · intro results
    simp [count_successes]

/-- **C10** witness: with a failing git oracle, the skip run (target
already present) and the failed run both return `None`, and a `None` in
front of a concrete result list leaves the success count unchanged. -/
theorem clone_result_merges_witness :
    ((clone_single_repo envFail repoB "" []).result = none ∨
      (clone_single_repo envFail repoB "" []).result = some repoB) ∧
    (clone_single_repo envFail repoB "" [target_path repoB]).result = none ∧
    (clone_single_repo envFail repoB "" []).result = none ∧
    (clone_single_repo envFail repoB "" [target_path repoB]).result
      = (clone_single_repo envFail repoB "" []).result ∧
    count_successes (none :: [some repoA]) = count_successes [some repoA] :=
  have h := clone_result_merges_skip_and_failure envFail repoB "" []
    [target_path repoB] [] (by decide) (by decide) (by decide)
  ⟨h.1, h.2.1, h.2.2.1, h.2.2.2.1, h.2.2.2.2 [some repoA]⟩

end GithubAgent
